import Mathlib

/-!
# Shallow embedding of `statespec` (src/spec.go)

The Go package drives a stateful property-based test: `Spec.Run` checks the
configuration, runs `Setup`, then for each iteration draws a random number of
commands to run, repeatedly selects a random command, asks it to `Gen` a
`CommandFunc` (which may decline), executes it, optionally verifies the state
transition, and finally runs `TearDown`.

The embedding is pure: the shared mutable `*rand.Rand` becomes an explicitly
threaded stream of naturals (`Rng`), the effectful callbacks (`Setup`,
`TearDown`) become their (deterministic) results, commands become pure
functions, and `error` values become an explicit inductive `RunErr` carrying
the same data the Go `fmt.Errorf` calls format into their messages.
For instrumentation the run additionally produces a trace of `Event`s
(setup called, init-state called, gen called/declined, command executed,
verify called, teardown called); the Go code does not record this trace but
every event corresponds to exactly one call site in `spec.go`.
-/

namespace Statespec

/-- Deterministic random source modelling Go's `*rand.Rand`:
an infinite stream of naturals together with a cursor. -/
structure Rng where
  stream : Nat → Nat
  pos : Nat
deriving Inhabited

/-- `rnd.Intn(n)`: the next stream value reduced modulo `n`, advancing the
cursor (all call sites in `spec.go` pass `n ≥ 1`). -/
def Rng.intn (r : Rng) (n : Nat) : Nat × Rng :=
  (r.stream r.pos % n, ⟨r.stream, r.pos + 1⟩)

/-- `CommandOutput` (spec.go lines 71-84): the result of running a
`CommandFunc`. `S` is the model-state type, `D` the type of the free-form
`Description any`, `E` the type of underlying Go errors. -/
structure CommandOutput (S D E : Type) where
  newState : S
  description : D
  error : Option E
deriving DecidableEq

/-- `Command` (spec.go lines 49-64). `gen` is passed the state and the RNG
and either declines (`none`) or yields the `CommandOutput` its `CommandFunc`
would produce; since `Gen` may itself consume randomness, it returns the
advanced RNG alongside. `verify` is optional (`nil`-able in Go). -/
structure Command (S D E : Type) where
  name : String
  gen : S → Rng → Option (CommandOutput S D E) × Rng
  verify : Option (S → S → Bool)

/-- `Spec` (spec.go lines 22-46). `setup`/`tearDown` are optional
(`nil`-able) callbacks; in the pure embedding a callback is represented by
the error it returns (`none` = success). `initState` is `nil`-able. -/
structure Spec (S D E : Type) where
  setup : Option (Option E)
  tearDown : Option (Option E)
  initState : Option (Unit → S)
  commands : List (Command S D E)

/-- `SpecConf` (spec.go lines 10-17). `rand` is `nil`-able; Go ints may be
negative, so the counts are `Int`. -/
structure SpecConf where
  rand : Option Rng
  iterations : Int
  maxCmdPerIter : Int

/-- The errors `Spec.Run` can return, one constructor per `fmt.Errorf` call
site, carrying the data that call formats into the message. `tearDownErr`
mirrors `fmt.Errorf("spec.Run TearDown error: %w", err)` (line 166): it
wraps the *prior run error* `err` — which is `nil` in the branch where the
statement executes — not the `TearDown` error `err2`. -/
inductive RunErr (S D E : Type) where
  | commandsEmpty
  | initStateNil
  | setupErr (e : E)
  | cmdErr (iter step : Nat) (name : String) (desc : D) (state : S) (e : E)
  | verifyErr (iter step : Nat) (name : String) (desc : D) (oldState newState : S)
  | tearDownErr (wrapped : Option E)
deriving DecidableEq

/-- Ghost trace events, one per interesting call site in `Spec.Run`.
`execCall`'s `errored` flag records whether the executed `CommandFunc`
returned a non-nil `Error`. -/
inductive Event (S : Type) where
  | setupCall
  | initStateCall (iter : Nat) (state : S)
  | genCall (iter : Nat) (cmdIdx : Nat) (declined : Bool)
  | execCall (iter step : Nat) (name : String) (preState postState : S) (errored : Bool)
  | verifyCall (iter step : Nat) (name : String) (result : Bool)
  | tearDownCall
deriving DecidableEq

/-- `s.Commands[rnd.Intn(len(s.Commands))]` (line 130): the command list is
non-empty on this path, represented as head plus tail. -/
def pick (c0 : Command S D E) (cs : List (Command S D E)) (k : Nat) :
    Command S D E :=
  (c0 :: cs).get ⟨k % (cs.length + 1), Nat.mod_lt _ (Nat.succ_pos _)⟩

/-- Result of the body handling one executed command. -/
structure StepRes (S D E : Type) where
  err : Option (RunErr S D E)
  events : List (Event S)

/-- Lines 138-151 of `spec.go`: the command has produced a `CommandFunc`,
run it, record a command error if `out.Error != nil`, then — with no `else`
— run `Verify` if present, overwriting `err` when it returns false. -/
def execStep (c : Command S D E) (iter step : Nat) (state : S)
    (out : CommandOutput S D E) : StepRes S D E :=
  let execErr : Option (RunErr S D E) :=
    match out.error with
    | some e => some (.cmdErr iter step c.name out.description state e)
    | none => none
  match c.verify with
  | none => ⟨execErr, [.execCall iter step c.name state out.newState out.error.isSome]⟩
  | some v =>
    let ok := v state out.newState
    ⟨if ok then execErr
     else some (.verifyErr iter step c.name out.description state out.newState),
     [.execCall iter step c.name state out.newState out.error.isSome,
      .verifyCall iter step c.name ok]⟩

/-- Result of the per-iteration command loop. -/
structure LoopRes (S D E : Type) where
  state : S
  rng : Rng
  err : Option (RunErr S D E)
  events : List (Event S)

/-- Lines 128-158 of `spec.go`: the inner loop of one iteration.
Runs while `cmdRun < total && tries < maxTries && err == nil`; a decline
increments `tries`, an execution advances the state, increments `cmdRun`
and resets `tries` to 0 (the bookkeeping at lines 153-156 runs even when
the step recorded an error, after which the loop condition fails). -/
def innerLoop (c0 : Command S D E) (cs : List (Command S D E))
    (iter total maxTries : Nat) (state : S) (cmdRun tries : Nat)
    (rng : Rng) : LoopRes S D E :=
  if _h : cmdRun < total ∧ tries < maxTries then
    let p := rng.intn (cs.length + 1)
    let c := pick c0 cs p.1
    let g := c.gen state p.2
    match g.1 with
    | none =>
      let rest := innerLoop c0 cs iter total maxTries state cmdRun (tries + 1) g.2
      ⟨rest.state, rest.rng, rest.err, .genCall iter p.1 true :: rest.events⟩
    | some out =>
      let sr := execStep c iter cmdRun state out
      match sr.err with
      | none =>
        let rest := innerLoop c0 cs iter total maxTries out.newState (cmdRun + 1) 0 g.2
        ⟨rest.state, rest.rng, rest.err,
         .genCall iter p.1 false :: (sr.events ++ rest.events)⟩
      | some e =>
        ⟨out.newState, g.2, some e, .genCall iter p.1 false :: sr.events⟩
  else
    ⟨state, rng, none, []⟩
termination_by (total - cmdRun, maxTries - tries)
decreasing_by
  · apply Prod.Lex.right
    omega
  · apply Prod.Lex.left
    omega

/-- Result of the outer iteration loop. -/
structure OuterRes (S D E : Type) where
  rng : Rng
  err : Option (RunErr S D E)
  events : List (Event S)

/-- Lines 123-159 of `spec.go`: `for i := 0; i < iters && err == nil; i++`.
Each iteration obtains a fresh state, draws
`totalCmdsToRun = rnd.Intn(cmdPerIter) + 1` and runs the inner loop with
`maxTries = 3 * len(commands)`. -/
def outerLoop (c0 : Command S D E) (cs : List (Command S D E))
    (init : Unit → S) (cmdPerIter iters i : Nat) (rng : Rng) :
    OuterRes S D E :=
  if _h : i < iters then
    let state := init ()
    let p := rng.intn cmdPerIter
    let r := innerLoop c0 cs i (p.1 + 1) (3 * (cs.length + 1)) state 0 0 p.2
    match r.err with
    | none =>
      let rest := outerLoop c0 cs init cmdPerIter iters (i + 1) r.rng
      ⟨rest.rng, rest.err, (.initStateCall i state :: r.events) ++ rest.events⟩
    | some e =>
      ⟨r.rng, some e, .initStateCall i state :: r.events⟩
  else
    ⟨rng, none, []⟩
termination_by iters - i
decreasing_by omega

/-- What `Spec.Run` returns (`(int, error)` in Go), plus the ghost trace. -/
structure RunResult (S D E : Type) where
  iters : Int
  err : Option (RunErr S D E)
  events : List (Event S)

/-- The defaulted iteration count (spec.go lines 108-111). -/
def itersOf (conf : SpecConf) : Int :=
  if conf.iterations < 1 then 100 else conf.iterations

/-- The defaulted per-iteration command cap (spec.go lines 113-116). -/
def cmdPerIterOf (conf : SpecConf) : Int :=
  if conf.maxCmdPerIter < 1 then 20 else conf.maxCmdPerIter

/-- The whole iteration phase (lines 101-159) as a function of the spec
parts and configuration: pick `conf.Rand` or the time-seeded default, apply
the defaults, run the outer loop from iteration 0. -/
def outerOf (c0 : Command S D E) (cs : List (Command S D E)) (init : Unit → S)
    (conf : SpecConf) (defaultRng : Rng) : OuterRes S D E :=
  outerLoop c0 cs init (cmdPerIterOf conf).toNat (itersOf conf).toNat 0
    (conf.rand.getD defaultRng)

/-- Lines 101-175 of `spec.go`: everything after a successful setup —
the iterations followed by the teardown handling and the final
`return iters, err`. `setupEvents` are the events the setup phase already
recorded. -/
def runAfterSetup (c0 : Command S D E) (cs : List (Command S D E))
    (init : Unit → S) (tearDown : Option (Option E))
    (setupEvents : List (Event S)) (conf : SpecConf) (defaultRng : Rng) :
    RunResult S D E :=
  let o := outerOf c0 cs init conf defaultRng
  match tearDown with
  | none => ⟨itersOf conf, o.err, setupEvents ++ o.events⟩
  | some none =>
    ⟨itersOf conf, o.err, setupEvents ++ o.events ++ [.tearDownCall]⟩
  | some (some _e2) =>
    match o.err with
    | none =>
      -- line 166: `err = fmt.Errorf("spec.Run TearDown error: %w", err)`
      -- wraps the prior `err`, provably nil on this branch; the teardown
      -- error `_e2` is dropped.
      ⟨itersOf conf, some (.tearDownErr none), setupEvents ++ o.events ++ [.tearDownCall]⟩
    | some e =>
      -- lines 168-169: prior error wins, teardown error only logged.
      ⟨itersOf conf, some e, setupEvents ++ o.events ++ [.tearDownCall]⟩

/-- `Spec.Run` (spec.go lines 86-175). `defaultRng` stands for the
time-seeded source built at lines 103-105 when `conf.Rand` is `nil`. -/
def Spec.run (s : Spec S D E) (conf : SpecConf) (defaultRng : Rng) :
    RunResult S D E :=
  match s.commands with
  | [] => ⟨0, some .commandsEmpty, []⟩
  | c0 :: cs =>
    match s.initState with
    | none => ⟨0, some .initStateNil, []⟩
    | some init =>
      match s.setup with
      | some (some e) => ⟨0, some (.setupErr e), [.setupCall]⟩
      | none => runAfterSetup c0 cs init s.tearDown [] conf defaultRng
      | some none =>
        runAfterSetup c0 cs init s.tearDown [.setupCall] conf defaultRng

/-! ## Helper observers used to state the claims -/

/-- The (iteration, step) position a mid-iteration error refers to. -/
def RunErr.pos : RunErr S D E → Option (Nat × Nat)
  | .cmdErr i k _ _ _ _ => some (i, k)
  | .verifyErr i k _ _ _ _ => some (i, k)
  | _ => none

/-- The command name a mid-iteration error refers to. -/
def RunErr.cmdName : RunErr S D E → Option String
  | .cmdErr _ _ n _ _ _ => some n
  | .verifyErr _ _ n _ _ _ => some n
  | _ => none

/-- The iteration an event belongs to (`none` for setup/teardown). -/
def Event.iterOf : Event S → Option Nat
  | .setupCall => none
  | .tearDownCall => none
  | .initStateCall i _ => some i
  | .genCall i _ _ => some i
  | .execCall i _ _ _ _ _ => some i
  | .verifyCall i _ _ _ => some i

/-- Whether an event is a call to some command's `Gen` during iteration `i`. -/
def Event.isGenAt (i : Nat) : Event S → Bool
  | .genCall j _ _ => j == i
  | _ => false

/-- Whether an event is the `TearDown` invocation. -/
def Event.isTearDown : Event S → Bool
  | .tearDownCall => true
  | _ => false

/-- Number of `Gen` calls recorded during iteration `i`. -/
def genCalls (i : Nat) (evs : List (Event S)) : Nat :=
  evs.countP (Event.isGenAt i)

/-- `(i', k')` is at or before `(i, k)` in iteration-major order. -/
def posLe (i' k' i k : Nat) : Prop :=
  i' < i ∨ (i' = i ∧ k' ≤ k)

/-- The command index drawn at line 130 of `spec.go`. -/
def selIdx (cs : List (Command S D E)) (rng : Rng) : Nat :=
  (rng.intn (cs.length + 1)).1

/-- The command selected at line 130 of `spec.go`. -/
def selCmd (c0 : Command S D E) (cs : List (Command S D E)) (rng : Rng) :
    Command S D E :=
  pick c0 cs (selIdx cs rng)

/-- The `Gen` call at line 131, with the RNG already advanced by the
selection draw. -/
def genAt (c0 : Command S D E) (cs : List (Command S D E)) (state : S)
    (rng : Rng) : Option (CommandOutput S D E) × Rng :=
  (selCmd c0 cs rng).gen state (rng.intn (cs.length + 1)).2

/-- The one-iteration body at lines 124-131 + 128-158: fresh state, draw
`totalCmdsToRun`, run the inner loop. -/
def iterRun (c0 : Command S D E) (cs : List (Command S D E)) (init : Unit → S)
    (cmdPerIter i : Nat) (rng : Rng) : LoopRes S D E :=
  innerLoop c0 cs i ((rng.intn cmdPerIter).1 + 1) (3 * (cs.length + 1))
    (init ()) 0 0 (rng.intn cmdPerIter).2

/-- The shape of events the inner loop of iteration `iter` emits once its
step counter has reached `lo`: only selection/execution/verification events
of that iteration, at step `lo` or later. -/
def innerEvOk (iter lo : Nat) : Event S → Prop
  | .genCall i _ _ => i = iter
  | .execCall i k _ _ _ _ => i = iter ∧ lo ≤ k
  | .verifyCall i k _ _ => i = iter ∧ lo ≤ k
  | _ => False

/-! ## Concrete fixtures (state = Nat, description = Nat, errors = String) -/

/-- A random source whose stream is constantly 0 (every `Intn` draw is 0). -/
def rng0 : Rng := ⟨fun _ => 0, 0⟩

/-- Always runs: increments the state, describes the pre-state, no error;
verifies that the new state is the old state plus one. -/
def incCmd : Command Nat Nat String :=
  ⟨"inc", fun s r => (some ⟨s + 1, s, none⟩, r), some (fun a b => b == a + 1)⟩

/-- Always declines. -/
def declCmd : Command Nat Nat String :=
  ⟨"decl", fun _ r => (none, r), none⟩

/-- Always runs without error, but its verification always returns false. -/
def failVerCmd : Command Nat Nat String :=
  ⟨"failver", fun s r => (some ⟨s + 1, s, none⟩, r), some (fun _ _ => false)⟩

/-- Always runs, its execution errors, and its verification returns false. -/
def errVerCmd : Command Nat Nat String :=
  ⟨"errver", fun s r => (some ⟨s + 1, s, some "boom"⟩, r), some (fun _ _ => false)⟩

/-- No setup/teardown, one always-succeeding command. -/
def incSpec : Spec Nat Nat String :=
  ⟨none, none, some (fun _ => 0), [incCmd]⟩

/-- Two commands that always decline. -/
def declSpec : Spec Nat Nat String :=
  ⟨none, none, some (fun _ => 0), [declCmd, declCmd]⟩

/-- One command whose verification always fails. -/
def failVerSpec : Spec Nat Nat String :=
  ⟨none, none, some (fun _ => 0), [failVerCmd]⟩

/-- One command whose execution errors and whose verification fails. -/
def errVerSpec : Spec Nat Nat String :=
  ⟨none, none, some (fun _ => 0), [errVerCmd]⟩

/-- Setup succeeds, teardown errors, one always-succeeding command. -/
def tdSpec : Spec Nat Nat String :=
  ⟨some none, some (some "td boom"), some (fun _ => 0), [incCmd]⟩

/-- Setup errors. -/
def setupErrSpec : Spec Nat Nat String :=
  ⟨some (some "setup boom"), some none, some (fun _ => 0), [incCmd]⟩

/-- No commands at all. -/
def emptySpec : Spec Nat Nat String :=
  ⟨none, none, some (fun _ => 0), []⟩

/-- No commands and no state factory. -/
def emptyNilSpec : Spec Nat Nat String :=
  ⟨none, none, none, []⟩

/-- Commands present but no state factory. -/
def nilInitSpec : Spec Nat Nat String :=
  ⟨none, none, none, [incCmd]⟩

/-- Setup succeeds, teardown errors, one command that errors and fails
verification. -/
def errVerTdSpec : Spec Nat Nat String :=
  ⟨some none, some (some "td boom"), some (fun _ => 0), [errVerCmd]⟩

/-- A small configuration with an explicit random source. -/
def conf3 : SpecConf := ⟨some rng0, 3, 5⟩

/-- A configuration with one iteration and one command per iteration. -/
def conf1 : SpecConf := ⟨some rng0, 1, 1⟩

/-- A configuration that relies on both defaults. -/
def confDefaults : SpecConf := ⟨some rng0, 0, -7⟩

/-! ## Branch equations for the loops -/

lemma innerLoop_stop (c0 : Command S D E) (cs : List (Command S D E))
    (iter total maxTries : Nat) (state : S) (cmdRun tries : Nat) (rng : Rng)
    (h : ¬(cmdRun < total ∧ tries < maxTries)) :
    innerLoop c0 cs iter total maxTries state cmdRun tries rng =
      ⟨state, rng, none, []⟩ := by
  rw [innerLoop, dif_neg h]

lemma innerLoop_decline (c0 : Command S D E) (cs : List (Command S D E))
    (iter total maxTries : Nat) (state : S) (cmdRun tries : Nat) (rng : Rng)
    (h : cmdRun < total ∧ tries < maxTries)
    (hg : (genAt c0 cs state rng).1 = none) :
    innerLoop c0 cs iter total maxTries state cmdRun tries rng =
      { innerLoop c0 cs iter total maxTries state cmdRun (tries + 1)
          (genAt c0 cs state rng).2 with
        events := .genCall iter (selIdx cs rng) true ::
          (innerLoop c0 cs iter total maxTries state cmdRun (tries + 1)
            (genAt c0 cs state rng).2).events } := by
  simp only [genAt, selCmd, selIdx] at hg ⊢
  rw [innerLoop, dif_pos h]
  simp only []
  rw [hg]

lemma innerLoop_exec_ok (c0 : Command S D E) (cs : List (Command S D E))
    (iter total maxTries : Nat) (state : S) (cmdRun tries : Nat) (rng : Rng)
    (out : CommandOutput S D E)
    (h : cmdRun < total ∧ tries < maxTries)
    (hg : (genAt c0 cs state rng).1 = some out)
    (hsr : (execStep (selCmd c0 cs rng) iter cmdRun state out).err = none) :
    innerLoop c0 cs iter total maxTries state cmdRun tries rng =
      { innerLoop c0 cs iter total maxTries out.newState (cmdRun + 1) 0
          (genAt c0 cs state rng).2 with
        events := .genCall iter (selIdx cs rng) false ::
          ((execStep (selCmd c0 cs rng) iter cmdRun state out).events ++
            (innerLoop c0 cs iter total maxTries out.newState (cmdRun + 1) 0
              (genAt c0 cs state rng).2).events) } := by
  simp only [genAt, selCmd, selIdx] at hg hsr ⊢
  rw [innerLoop, dif_pos h]
  simp only []
  rw [hg]
  simp only []
  rw [hsr]

lemma innerLoop_exec_err (c0 : Command S D E) (cs : List (Command S D E))
    (iter total maxTries : Nat) (state : S) (cmdRun tries : Nat) (rng : Rng)
    (out : CommandOutput S D E) (e : RunErr S D E)
    (h : cmdRun < total ∧ tries < maxTries)
    (hg : (genAt c0 cs state rng).1 = some out)
    (hsr : (execStep (selCmd c0 cs rng) iter cmdRun state out).err = some e) :
    innerLoop c0 cs iter total maxTries state cmdRun tries rng =
      ⟨out.newState, (genAt c0 cs state rng).2, some e,
       .genCall iter (selIdx cs rng) false ::
         (execStep (selCmd c0 cs rng) iter cmdRun state out).events⟩ := by
  simp only [genAt, selCmd, selIdx] at hg hsr ⊢
  rw [innerLoop, dif_pos h]
  simp only []
  rw [hg]
  simp only []
  rw [hsr]

lemma outerLoop_stop (c0 : Command S D E) (cs : List (Command S D E))
    (init : Unit → S) (cmdPerIter iters i : Nat) (rng : Rng)
    (h : ¬ i < iters) :
    outerLoop c0 cs init cmdPerIter iters i rng = ⟨rng, none, []⟩ := by
  rw [outerLoop, dif_neg h]

lemma outerLoop_cont (c0 : Command S D E) (cs : List (Command S D E))
    (init : Unit → S) (cmdPerIter iters i : Nat) (rng : Rng)
    (h : i < iters)
    (hr : (iterRun c0 cs init cmdPerIter i rng).err = none) :
    outerLoop c0 cs init cmdPerIter iters i rng =
      { outerLoop c0 cs init cmdPerIter iters (i + 1)
          (iterRun c0 cs init cmdPerIter i rng).rng with
        events := (.initStateCall i (init ()) ::
            (iterRun c0 cs init cmdPerIter i rng).events) ++
          (outerLoop c0 cs init cmdPerIter iters (i + 1)
            (iterRun c0 cs init cmdPerIter i rng).rng).events } := by
  simp only [iterRun] at hr ⊢
  rw [outerLoop, dif_pos h]
  simp only []
  rw [hr]

lemma outerLoop_err (c0 : Command S D E) (cs : List (Command S D E))
    (init : Unit → S) (cmdPerIter iters i : Nat) (rng : Rng)
    (e : RunErr S D E) (h : i < iters)
    (hr : (iterRun c0 cs init cmdPerIter i rng).err = some e) :
    outerLoop c0 cs init cmdPerIter iters i rng =
      ⟨(iterRun c0 cs init cmdPerIter i rng).rng, some e,
       .initStateCall i (init ()) ::
         (iterRun c0 cs init cmdPerIter i rng).events⟩ := by
  simp only [iterRun] at hr ⊢
  rw [outerLoop, dif_pos h]
  simp only []
  rw [hr]

/-! ## Facts about a single executed command (`execStep`) -/

lemma execStep_err_none (c : Command S D E) (iter step : Nat) (state : S)
    (out : CommandOutput S D E)
    (h : (execStep c iter step state out).err = none) :
    out.error = none := by
  cases hv : c.verify <;> cases he : out.error <;>
    simp [execStep, hv, he] at h ⊢
  split at h <;> simp at h

lemma execStep_err_pos (c : Command S D E) (iter step : Nat) (state : S)
    (out : CommandOutput S D E) (e : RunErr S D E)
    (h : (execStep c iter step state out).err = some e) :
    e.pos = some (iter, step) ∧ e.cmdName = some c.name := by
  cases hv : c.verify <;> cases he : out.error <;>
    simp only [execStep, hv, he] at h
  · simp at h
  · simp at h
    subst h
    exact ⟨rfl, rfl⟩
  · split at h <;> simp at h <;> subst h <;> exact ⟨rfl, rfl⟩
  · split at h <;> simp at h <;> subst h <;> exact ⟨rfl, rfl⟩

lemma execStep_mem_exec (c : Command S D E) (iter step : Nat) (state : S)
    (out : CommandOutput S D E) (i k : Nat) (n : String) (s1 s2 : S)
    (b : Bool)
    (h : Event.execCall i k n s1 s2 b ∈ (execStep c iter step state out).events) :
    i = iter ∧ k = step ∧ n = c.name ∧ b = out.error.isSome := by
  cases hv : c.verify <;> simp [execStep, hv] at h <;> tauto

lemma execStep_mem_verify (c : Command S D E) (iter step : Nat) (state : S)
    (out : CommandOutput S D E) (i k : Nat) (n : String) (b : Bool)
    (h : Event.verifyCall i k n b ∈ (execStep c iter step state out).events) :
    i = iter ∧ k = step ∧ n = c.name ∧
      ∃ v, c.verify = some v ∧ b = v state out.newState := by
  cases hv : c.verify <;> simp [execStep, hv] at h
  tauto

lemma execStep_verifyFalse (c : Command S D E) (iter step : Nat) (state : S)
    (out : CommandOutput S D E) (i k : Nat) (n : String)
    (h : Event.verifyCall i k n false ∈ (execStep c iter step state out).events) :
    i = iter ∧ k = step ∧ n = c.name ∧
      (execStep c iter step state out).err =
        some (.verifyErr iter step c.name out.description state out.newState) := by
  cases hv : c.verify with
  | none => simp [execStep, hv] at h
  | some v =>
    simp [execStep, hv] at h
    obtain ⟨h1, h2, h3, h4⟩ := h
    refine ⟨h1, h2, h3, ?_⟩
    simp [execStep, hv, h4]

lemma execStep_mem_shape (c : Command S D E) (iter step : Nat) (state : S)
    (out : CommandOutput S D E) (ev : Event S)
    (h : ev ∈ (execStep c iter step state out).events) :
    (∃ b, ev = .execCall iter step c.name state out.newState b) ∨
      (∃ b, ev = .verifyCall iter step c.name b) := by
  cases hv : c.verify <;> simp [execStep, hv] at h
  · exact .inl ⟨_, h⟩
  · rcases h with h | h
    · exact .inl ⟨_, h⟩
    · exact .inr ⟨_, h⟩

/-! ## Invariants of the inner loop -/

lemma innerEvOk_mono {iter lo lo' : Nat} {ev : Event S} (h : lo ≤ lo')
    (h' : innerEvOk iter lo' ev) : innerEvOk iter lo ev := by
  cases ev <;> simp [innerEvOk] at h' ⊢ <;> omega

lemma innerLoop_events_ok (c0 : Command S D E) (cs : List (Command S D E))
    (iter total maxTries : Nat) (state : S) (cmdRun tries : Nat) (rng : Rng) :
    ∀ ev ∈ (innerLoop c0 cs iter total maxTries state cmdRun tries rng).events,
      innerEvOk iter cmdRun ev := by
  by_cases h : cmdRun < total ∧ tries < maxTries
  · cases hg : (genAt c0 cs state rng).1 with
    | none =>
      rw [innerLoop_decline c0 cs iter total maxTries state cmdRun tries rng h hg]
      intro ev hev
      rcases List.mem_cons.1 hev with rfl | hev
      · simp [innerEvOk]
      · exact innerLoop_events_ok c0 cs iter total maxTries state cmdRun
          (tries + 1) _ ev hev
    | some out =>
      cases hsr : (execStep (selCmd c0 cs rng) iter cmdRun state out).err with
      | none =>
        rw [innerLoop_exec_ok c0 cs iter total maxTries state cmdRun tries rng
          out h hg hsr]
        intro ev hev
        rcases List.mem_cons.1 hev with rfl | hev
        · simp [innerEvOk]
        rcases List.mem_append.1 hev with hev | hev
        · rcases execStep_mem_shape _ _ _ _ _ _ hev with ⟨b, rfl⟩ | ⟨b, rfl⟩ <;>
            simp [innerEvOk]
        · exact innerEvOk_mono (Nat.le_succ _)
            (innerLoop_events_ok c0 cs iter total maxTries out.newState
              (cmdRun + 1) 0 _ ev hev)
      | some e =>
        rw [innerLoop_exec_err c0 cs iter total maxTries state cmdRun tries rng
          out e h hg hsr]
        intro ev hev
        rcases List.mem_cons.1 hev with rfl | hev
        · simp [innerEvOk]
        · rcases execStep_mem_shape _ _ _ _ _ _ hev with ⟨b, rfl⟩ | ⟨b, rfl⟩ <;>
            simp [innerEvOk]
  · rw [innerLoop_stop c0 cs iter total maxTries state cmdRun tries rng h]
    intro ev hev
    simp at hev
termination_by (total - cmdRun, maxTries - tries)
decreasing_by
  · apply Prod.Lex.right
    omega
  · apply Prod.Lex.left
    omega

lemma innerLoop_err_last (c0 : Command S D E) (cs : List (Command S D E))
    (iter total maxTries : Nat) (state : S) (cmdRun tries : Nat) (rng : Rng)
    (e : RunErr S D E)
    (he : (innerLoop c0 cs iter total maxTries state cmdRun tries rng).err = some e) :
    ∃ k, e.pos = some (iter, k) ∧ e.cmdName.isSome ∧ cmdRun ≤ k ∧
      ∀ ev ∈ (innerLoop c0 cs iter total maxTries state cmdRun tries rng).events,
        ∀ i' k' n s1 s2 b, ev = Event.execCall i' k' n s1 s2 b → k' ≤ k := by
  by_cases h : cmdRun < total ∧ tries < maxTries
  · cases hg : (genAt c0 cs state rng).1 with
    | none =>
      have he' : (innerLoop c0 cs iter total maxTries state cmdRun (tries + 1)
          (genAt c0 cs state rng).2).err = some e := by
        rw [innerLoop_decline c0 cs iter total maxTries state cmdRun tries rng h hg] at he
        exact he
      obtain ⟨k, hk1, hk2, hk3, hk4⟩ := innerLoop_err_last c0 cs iter total
        maxTries state cmdRun (tries + 1) _ e he'
      refine ⟨k, hk1, hk2, hk3, ?_⟩
      rw [innerLoop_decline c0 cs iter total maxTries state cmdRun tries rng h hg]
      intro ev hev i' k' n s1 s2 b hev'
      rcases List.mem_cons.1 hev with rfl | hev
      · simp at hev'
      · exact hk4 ev hev i' k' n s1 s2 b hev'
    | some out =>
      cases hsr : (execStep (selCmd c0 cs rng) iter cmdRun state out).err with
      | none =>
        have he' : (innerLoop c0 cs iter total maxTries out.newState (cmdRun + 1) 0
            (genAt c0 cs state rng).2).err = some e := by
          rw [innerLoop_exec_ok c0 cs iter total maxTries state cmdRun tries rng
            out h hg hsr] at he
          exact he
        obtain ⟨k, hk1, hk2, hk3, hk4⟩ := innerLoop_err_last c0 cs iter total
          maxTries out.newState (cmdRun + 1) 0 _ e he'
        refine ⟨k, hk1, hk2, by omega, ?_⟩
        rw [innerLoop_exec_ok c0 cs iter total maxTries state cmdRun tries rng
          out h hg hsr]
        intro ev hev i' k' n s1 s2 b hev'
        rcases List.mem_cons.1 hev with rfl | hev
        · simp at hev'
        rcases List.mem_append.1 hev with hev | hev
        · subst hev'
          obtain ⟨_, hk', _, _⟩ := execStep_mem_exec _ _ _ _ _ _ _ _ _ _ _ hev
          omega
        · exact hk4 ev hev i' k' n s1 s2 b hev'
      | some e2 =>
        have he2 : e2 = e := by
          rw [innerLoop_exec_err c0 cs iter total maxTries state cmdRun tries rng
            out e2 h hg hsr] at he
          exact Option.some.inj he
        subst he2
        obtain ⟨hp, hn⟩ := execStep_err_pos _ _ _ _ _ _ hsr
        refine ⟨cmdRun, hp, by simp [hn], le_refl _, ?_⟩
        rw [innerLoop_exec_err c0 cs iter total maxTries state cmdRun tries rng
          out e2 h hg hsr]
        intro ev hev i' k' n s1 s2 b hev'
        rcases List.mem_cons.1 hev with rfl | hev
        · simp at hev'
        · subst hev'
          obtain ⟨_, hk', _, _⟩ := execStep_mem_exec _ _ _ _ _ _ _ _ _ _ _ hev
          omega
  · rw [innerLoop_stop c0 cs iter total maxTries state cmdRun tries rng h] at he
    simp at he
termination_by (total - cmdRun, maxTries - tries)
decreasing_by
  · apply Prod.Lex.right
    omega
  · apply Prod.Lex.left
    omega

lemma innerLoop_verifyFalse (c0 : Command S D E) (cs : List (Command S D E))
    (iter total maxTries : Nat) (state : S) (cmdRun tries : Nat) (rng : Rng)
    (i k : Nat) (n : String)
    (hm : Event.verifyCall i k n false ∈
      (innerLoop c0 cs iter total maxTries state cmdRun tries rng).events) :
    ∃ d s1 s2, (innerLoop c0 cs iter total maxTries state cmdRun tries rng).err =
      some (.verifyErr i k n d s1 s2) := by
  by_cases h : cmdRun < total ∧ tries < maxTries
  · cases hg : (genAt c0 cs state rng).1 with
    | none =>
      rw [innerLoop_decline c0 cs iter total maxTries state cmdRun tries rng h hg] at hm ⊢
      rcases List.mem_cons.1 hm with hm | hm
      · simp at hm
      · exact innerLoop_verifyFalse c0 cs iter total maxTries state cmdRun
          (tries + 1) _ i k n hm
    | some out =>
      cases hsr : (execStep (selCmd c0 cs rng) iter cmdRun state out).err with
      | none =>
        rw [innerLoop_exec_ok c0 cs iter total maxTries state cmdRun tries rng
          out h hg hsr] at hm ⊢
        rcases List.mem_cons.1 hm with hm | hm
        · simp at hm
        rcases List.mem_append.1 hm with hm | hm
        · obtain ⟨_, _, _, hbad⟩ := execStep_verifyFalse _ _ _ _ _ _ _ _ hm
          rw [hsr] at hbad
          simp at hbad
        · exact innerLoop_verifyFalse c0 cs iter total maxTries out.newState
            (cmdRun + 1) 0 _ i k n hm
      | some e =>
        rw [innerLoop_exec_err c0 cs iter total maxTries state cmdRun tries rng
          out e h hg hsr] at hm ⊢
        rcases List.mem_cons.1 hm with hm | hm
        · simp at hm
        · obtain ⟨h1, h2, h3, hq⟩ := execStep_verifyFalse _ _ _ _ _ _ _ _ hm
          rw [hsr] at hq
          refine ⟨out.description, state, out.newState, ?_⟩
          rw [Option.some.inj hq]
          rw [h1, h2, h3]
  · rw [innerLoop_stop c0 cs iter total maxTries state cmdRun tries rng h] at hm
    simp at hm
termination_by (total - cmdRun, maxTries - tries)
decreasing_by
  · apply Prod.Lex.right
    omega
  · apply Prod.Lex.left
    omega

lemma innerLoop_execErrored (c0 : Command S D E) (cs : List (Command S D E))
    (iter total maxTries : Nat) (state : S) (cmdRun tries : Nat) (rng : Rng)
    (i k : Nat) (n : String) (s1 s2 : S)
    (hm : Event.execCall i k n s1 s2 true ∈
      (innerLoop c0 cs iter total maxTries state cmdRun tries rng).events) :
    ∃ e, (innerLoop c0 cs iter total maxTries state cmdRun tries rng).err = some e ∧
      e.pos = some (i, k) ∧ e.cmdName = some n := by
  by_cases h : cmdRun < total ∧ tries < maxTries
  · cases hg : (genAt c0 cs state rng).1 with
    | none =>
      rw [innerLoop_decline c0 cs iter total maxTries state cmdRun tries rng h hg] at hm ⊢
      rcases List.mem_cons.1 hm with hm | hm
      · simp at hm
      · exact innerLoop_execErrored c0 cs iter total maxTries state cmdRun
          (tries + 1) _ i k n s1 s2 hm
    | some out =>
      cases hsr : (execStep (selCmd c0 cs rng) iter cmdRun state out).err with
      | none =>
        rw [innerLoop_exec_ok c0 cs iter total maxTries state cmdRun tries rng
          out h hg hsr] at hm ⊢
        rcases List.mem_cons.1 hm with hm | hm
        · simp at hm
        rcases List.mem_append.1 hm with hm | hm
        · obtain ⟨_, _, _, hb⟩ := execStep_mem_exec _ _ _ _ _ _ _ _ _ _ _ hm
          have := execStep_err_none _ _ _ _ _ hsr
          rw [this] at hb
          simp at hb
        · exact innerLoop_execErrored c0 cs iter total maxTries out.newState
            (cmdRun + 1) 0 _ i k n s1 s2 hm
      | some e =>
        rw [innerLoop_exec_err c0 cs iter total maxTries state cmdRun tries rng
          out e h hg hsr] at hm ⊢
        rcases List.mem_cons.1 hm with hm | hm
        · simp at hm
        · obtain ⟨h1, h2, h3, _⟩ := execStep_mem_exec _ _ _ _ _ _ _ _ _ _ _ hm
          obtain ⟨hp, hn⟩ := execStep_err_pos _ _ _ _ _ _ hsr
          exact ⟨e, rfl, by rw [h1, h2]; exact hp, by rw [h3]; exact hn⟩
  · rw [innerLoop_stop c0 cs iter total maxTries state cmdRun tries rng h] at hm
    simp at hm
termination_by (total - cmdRun, maxTries - tries)
decreasing_by
  · apply Prod.Lex.right
    omega
  · apply Prod.Lex.left
    omega

lemma innerEvOk_iterOf {iter lo : Nat} {ev : Event S}
    (h : innerEvOk iter lo ev) : ev.iterOf = some iter := by
  cases ev <;> simp [innerEvOk, Event.iterOf] at h ⊢ <;> tauto

/-! ## Invariants of the outer loop -/

lemma outerLoop_events_ok (c0 : Command S D E) (cs : List (Command S D E))
    (init : Unit → S) (cmdPerIter iters i : Nat) (rng : Rng) :
    ∀ ev ∈ (outerLoop c0 cs init cmdPerIter iters i rng).events,
      ∃ j, ev.iterOf = some j ∧ i ≤ j := by
  by_cases h : i < iters
  · cases hr : (iterRun c0 cs init cmdPerIter i rng).err with
    | none =>
      rw [outerLoop_cont c0 cs init cmdPerIter iters i rng h hr]
      intro ev hev
      rcases List.mem_append.1 hev with hev | hev
      · rcases List.mem_cons.1 hev with rfl | hev
        · exact ⟨i, rfl, le_refl _⟩
        · exact ⟨i, innerEvOk_iterOf (innerLoop_events_ok c0 cs i
            ((rng.intn cmdPerIter).1 + 1) (3 * (cs.length + 1)) (init ()) 0 0
            (rng.intn cmdPerIter).2 ev hev), le_refl _⟩
      · obtain ⟨j, hj, hij⟩ := outerLoop_events_ok c0 cs init cmdPerIter iters
          (i + 1) _ ev hev
        exact ⟨j, hj, by omega⟩
    | some e =>
      rw [outerLoop_err c0 cs init cmdPerIter iters i rng e h hr]
      intro ev hev
      rcases List.mem_cons.1 hev with rfl | hev
      · exact ⟨i, rfl, le_refl _⟩
      · exact ⟨i, innerEvOk_iterOf (innerLoop_events_ok c0 cs i
          ((rng.intn cmdPerIter).1 + 1) (3 * (cs.length + 1)) (init ()) 0 0
          (rng.intn cmdPerIter).2 ev hev), le_refl _⟩
  · rw [outerLoop_stop c0 cs init cmdPerIter iters i rng h]
    intro ev hev
    simp at hev
termination_by iters - i
decreasing_by omega

lemma outerLoop_err_last (c0 : Command S D E) (cs : List (Command S D E))
    (init : Unit → S) (cmdPerIter iters i : Nat) (rng : Rng) (e : RunErr S D E)
    (he : (outerLoop c0 cs init cmdPerIter iters i rng).err = some e) :
    ∃ i0 k0, e.pos = some (i0, k0) ∧ i ≤ i0 ∧ e.cmdName.isSome ∧
      ∀ ev ∈ (outerLoop c0 cs init cmdPerIter iters i rng).events,
        ∀ i' k' n s1 s2 b, ev = Event.execCall i' k' n s1 s2 b →
          posLe i' k' i0 k0 := by
  by_cases h : i < iters
  · cases hr : (iterRun c0 cs init cmdPerIter i rng).err with
    | none =>
      have he' : (outerLoop c0 cs init cmdPerIter iters (i + 1)
          (iterRun c0 cs init cmdPerIter i rng).rng).err = some e := by
        rw [outerLoop_cont c0 cs init cmdPerIter iters i rng h hr] at he
        exact he
      obtain ⟨i0, k0, hp, hi0, hn0, hlast⟩ := outerLoop_err_last c0 cs init
        cmdPerIter iters (i + 1) _ e he'
      refine ⟨i0, k0, hp, by omega, hn0, ?_⟩
      rw [outerLoop_cont c0 cs init cmdPerIter iters i rng h hr]
      intro ev hev i' k' n s1 s2 b hev'
      rcases List.mem_append.1 hev with hev | hev
      · rcases List.mem_cons.1 hev with rfl | hev
        · simp at hev'
        · subst hev'
          have hok := innerLoop_events_ok c0 cs i ((rng.intn cmdPerIter).1 + 1)
            (3 * (cs.length + 1)) (init ()) 0 0 (rng.intn cmdPerIter).2 _ hev
          obtain ⟨hi', _⟩ := hok
          exact Or.inl (by omega)
      · exact hlast ev hev i' k' n s1 s2 b hev'
    | some e2 =>
      have he2 : e2 = e := by
        rw [outerLoop_err c0 cs init cmdPerIter iters i rng e2 h hr] at he
        exact Option.some.inj he
      subst he2
      obtain ⟨k0, hp, hn0, _, hlast⟩ := innerLoop_err_last c0 cs i
        ((rng.intn cmdPerIter).1 + 1) (3 * (cs.length + 1)) (init ()) 0 0
        (rng.intn cmdPerIter).2 e2 hr
      refine ⟨i, k0, hp, le_refl _, hn0, ?_⟩
      rw [outerLoop_err c0 cs init cmdPerIter iters i rng e2 h hr]
      intro ev hev i' k' n s1 s2 b hev'
      rcases List.mem_cons.1 hev with rfl | hev
      · simp at hev'
      · have hok := innerLoop_events_ok c0 cs i ((rng.intn cmdPerIter).1 + 1)
          (3 * (cs.length + 1)) (init ()) 0 0 (rng.intn cmdPerIter).2 _ hev
        have hk' := hlast ev hev i' k' n s1 s2 b hev'
        subst hev'
        obtain ⟨hi', _⟩ := hok
        exact Or.inr ⟨hi', hk'⟩
  · rw [outerLoop_stop c0 cs init cmdPerIter iters i rng h] at he
    simp at he
termination_by iters - i
decreasing_by omega

lemma outerLoop_verifyFalse (c0 : Command S D E) (cs : List (Command S D E))
    (init : Unit → S) (cmdPerIter iters i : Nat) (rng : Rng)
    (i0 k : Nat) (n : String)
    (hm : Event.verifyCall i0 k n false ∈
      (outerLoop c0 cs init cmdPerIter iters i rng).events) :
    ∃ d s1 s2, (outerLoop c0 cs init cmdPerIter iters i rng).err =
      some (.verifyErr i0 k n d s1 s2) := by
  by_cases h : i < iters
  · cases hr : (iterRun c0 cs init cmdPerIter i rng).err with
    | none =>
      rw [outerLoop_cont c0 cs init cmdPerIter iters i rng h hr] at hm ⊢
      rcases List.mem_append.1 hm with hm | hm
      · rcases List.mem_cons.1 hm with hm | hm
        · simp at hm
        · obtain ⟨d, s1, s2, hbad⟩ := innerLoop_verifyFalse c0 cs i
            ((rng.intn cmdPerIter).1 + 1) (3 * (cs.length + 1)) (init ()) 0 0
            (rng.intn cmdPerIter).2 i0 k n hm
          simp only [iterRun] at hr
          rw [hr] at hbad
          simp at hbad
      · exact outerLoop_verifyFalse c0 cs init cmdPerIter iters (i + 1) _ i0 k n hm
    | some e =>
      rw [outerLoop_err c0 cs init cmdPerIter iters i rng e h hr] at hm ⊢
      rcases List.mem_cons.1 hm with hm | hm
      · simp at hm
      · obtain ⟨d, s1, s2, hq⟩ := innerLoop_verifyFalse c0 cs i
          ((rng.intn cmdPerIter).1 + 1) (3 * (cs.length + 1)) (init ()) 0 0
          (rng.intn cmdPerIter).2 i0 k n hm
        simp only [iterRun] at hr
        rw [hr] at hq
        exact ⟨d, s1, s2, hq⟩
  · rw [outerLoop_stop c0 cs init cmdPerIter iters i rng h] at hm
    simp at hm
termination_by iters - i
decreasing_by omega

lemma outerLoop_execErrored (c0 : Command S D E) (cs : List (Command S D E))
    (init : Unit → S) (cmdPerIter iters i : Nat) (rng : Rng)
    (i0 k : Nat) (n : String) (s1 s2 : S)
    (hm : Event.execCall i0 k n s1 s2 true ∈
      (outerLoop c0 cs init cmdPerIter iters i rng).events) :
    ∃ e, (outerLoop c0 cs init cmdPerIter iters i rng).err = some e ∧
      e.pos = some (i0, k) ∧ e.cmdName = some n := by
  by_cases h : i < iters
  · cases hr : (iterRun c0 cs init cmdPerIter i rng).err with
    | none =>
      rw [outerLoop_cont c0 cs init cmdPerIter iters i rng h hr] at hm ⊢
      rcases List.mem_append.1 hm with hm | hm
      · rcases List.mem_cons.1 hm with hm | hm
        · simp at hm
        · obtain ⟨e, hbad, _, _⟩ := innerLoop_execErrored c0 cs i
            ((rng.intn cmdPerIter).1 + 1) (3 * (cs.length + 1)) (init ()) 0 0
            (rng.intn cmdPerIter).2 i0 k n s1 s2 hm
          simp only [iterRun] at hr
          rw [hr] at hbad
          simp at hbad
      · exact outerLoop_execErrored c0 cs init cmdPerIter iters (i + 1) _
          i0 k n s1 s2 hm
    | some e =>
      rw [outerLoop_err c0 cs init cmdPerIter iters i rng e h hr] at hm ⊢
      rcases List.mem_cons.1 hm with hm | hm
      · simp at hm
      · obtain ⟨e', he', hp, hn⟩ := innerLoop_execErrored c0 cs i
          ((rng.intn cmdPerIter).1 + 1) (3 * (cs.length + 1)) (init ()) 0 0
          (rng.intn cmdPerIter).2 i0 k n s1 s2 hm
        simp only [iterRun] at hr
        rw [hr] at he'
        have he2 : e = e' := Option.some.inj he'
        subst he2
        exact ⟨e, rfl, hp, hn⟩
  · rw [outerLoop_stop c0 cs init cmdPerIter iters i rng h] at hm
    simp at hm
termination_by iters - i
decreasing_by omega

/-! ## Unfolding lemmas for `Spec.run` -/

lemma run_commandsEmpty (s : Spec S D E) (conf : SpecConf) (d : Rng)
    (hc : s.commands = []) :
    s.run conf d = ⟨0, some .commandsEmpty, []⟩ := by
  simp [Spec.run, hc]

lemma run_initStateNil (s : Spec S D E) (conf : SpecConf) (d : Rng)
    (c0 : Command S D E) (cs : List (Command S D E))
    (hc : s.commands = c0 :: cs) (hi : s.initState = none) :
    s.run conf d = ⟨0, some .initStateNil, []⟩ := by
  simp [Spec.run, hc, hi]

lemma run_setupErr (s : Spec S D E) (conf : SpecConf) (d : Rng)
    (c0 : Command S D E) (cs : List (Command S D E)) (init : Unit → S)
    (e : E) (hc : s.commands = c0 :: cs) (hi : s.initState = some init)
    (hsu : s.setup = some (some e)) :
    s.run conf d = ⟨0, some (.setupErr e), [.setupCall]⟩ := by
  simp [Spec.run, hc, hi, hsu]

lemma run_setupAbsent (s : Spec S D E) (conf : SpecConf) (d : Rng)
    (c0 : Command S D E) (cs : List (Command S D E)) (init : Unit → S)
    (hc : s.commands = c0 :: cs) (hi : s.initState = some init)
    (hsu : s.setup = none) :
    s.run conf d = runAfterSetup c0 cs init s.tearDown [] conf d := by
  simp [Spec.run, hc, hi, hsu]

lemma run_setupOk (s : Spec S D E) (conf : SpecConf) (d : Rng)
    (c0 : Command S D E) (cs : List (Command S D E)) (init : Unit → S)
    (hc : s.commands = c0 :: cs) (hi : s.initState = some init)
    (hsu : s.setup = some none) :
    s.run conf d = runAfterSetup c0 cs init s.tearDown [.setupCall] conf d := by
  simp [Spec.run, hc, hi, hsu]

lemma runAfterSetup_iters (c0 : Command S D E) (cs : List (Command S D E))
    (init : Unit → S) (td : Option (Option E)) (se : List (Event S))
    (conf : SpecConf) (d : Rng) :
    (runAfterSetup c0 cs init td se conf d).iters = itersOf conf := by
  unfold runAfterSetup
  rcases td with _ | (_ | e2)
  · rfl
  · rfl
  · cases ho : (outerOf c0 cs init conf d).err <;> simp [ho]

lemma runAfterSetup_err_of_some (c0 : Command S D E)
    (cs : List (Command S D E)) (init : Unit → S) (td : Option (Option E))
    (se : List (Event S)) (conf : SpecConf) (d : Rng) (e : RunErr S D E)
    (ho : (outerOf c0 cs init conf d).err = some e) :
    (runAfterSetup c0 cs init td se conf d).err = some e := by
  unfold runAfterSetup
  rcases td with _ | (_ | e2) <;> simp [ho]

lemma runAfterSetup_err_of_none (c0 : Command S D E)
    (cs : List (Command S D E)) (init : Unit → S) (td : Option (Option E))
    (se : List (Event S)) (conf : SpecConf) (d : Rng)
    (ho : (outerOf c0 cs init conf d).err = none) :
    (runAfterSetup c0 cs init td se conf d).err =
      match td with
      | some (some _) => some (.tearDownErr none)
      | _ => none := by
  unfold runAfterSetup
  rcases td with _ | (_ | e2) <;> simp [ho]

lemma runAfterSetup_events (c0 : Command S D E) (cs : List (Command S D E))
    (init : Unit → S) (td : Option (Option E)) (se : List (Event S))
    (conf : SpecConf) (d : Rng) :
    (runAfterSetup c0 cs init td se conf d).events =
      se ++ (outerOf c0 cs init conf d).events ++
        (if td.isSome then [.tearDownCall] else []) := by
  unfold runAfterSetup
  rcases td with _ | (_ | e2)
  · simp
  · simp
  · cases ho : (outerOf c0 cs init conf d).err <;> simp [ho]

/-! ## Run-level decomposition helpers -/

lemma run_case_split (s : Spec S D E) (conf : SpecConf) (d : Rng) :
    (s.run conf d).events = [] ∨ (s.run conf d).events = [Event.setupCall] ∨
      ∃ c0 cs init, s.commands = c0 :: cs ∧ s.initState = some init ∧
        ((s.setup = none ∧
            s.run conf d = runAfterSetup c0 cs init s.tearDown [] conf d) ∨
         (s.setup = some none ∧
            s.run conf d =
              runAfterSetup c0 cs init s.tearDown [Event.setupCall] conf d)) := by
  cases hc : s.commands with
  | nil =>
    rw [run_commandsEmpty s conf d hc]
    exact Or.inl rfl
  | cons c0 cs =>
    cases hi : s.initState with
    | none =>
      rw [run_initStateNil s conf d c0 cs hc hi]
      exact Or.inl rfl
    | some init =>
      rcases hsu : s.setup with _ | (_ | e)
      · exact Or.inr (Or.inr ⟨c0, cs, init, rfl, rfl,
          Or.inl ⟨rfl, run_setupAbsent s conf d c0 cs init hc hi hsu⟩⟩)
      · exact Or.inr (Or.inr ⟨c0, cs, init, rfl, rfl,
          Or.inr ⟨rfl, run_setupOk s conf d c0 cs init hc hi hsu⟩⟩)
      · rw [run_setupErr s conf d c0 cs init e hc hi hsu]
        exact Or.inr (Or.inl rfl)

lemma mem_outer_of_mem_runAfterSetup (c0 : Command S D E)
    (cs : List (Command S D E)) (init : Unit → S) (td : Option (Option E))
    (se : List (Event S)) (conf : SpecConf) (d : Rng) (ev : Event S)
    (hse : ∀ ev' ∈ se, ev' = Event.setupCall)
    (hev : ev ∈ (runAfterSetup c0 cs init td se conf d).events)
    (hnotsu : ev ≠ Event.setupCall) (hnottd : ev ≠ Event.tearDownCall) :
    ev ∈ (outerOf c0 cs init conf d).events := by
  rw [runAfterSetup_events] at hev
  rcases List.mem_append.1 hev with hev | hev
  · rcases List.mem_append.1 hev with hev | hev
    · exact absurd (hse ev hev) hnotsu
    · exact hev
  · split at hev
    · simp at hev
      exact absurd hev hnottd
    · simp at hev

lemma outerOf_events_ok (c0 : Command S D E) (cs : List (Command S D E))
    (init : Unit → S) (conf : SpecConf) (d : Rng) :
    ∀ ev ∈ (outerOf c0 cs init conf d).events, ∃ j, ev.iterOf = some j := by
  intro ev hev
  obtain ⟨j, hj, _⟩ := outerLoop_events_ok c0 cs init (cmdPerIterOf conf).toNat
    (itersOf conf).toNat 0 (conf.rand.getD d) ev hev
  exact ⟨j, hj⟩

lemma outerOf_no_tearDownCall (c0 : Command S D E) (cs : List (Command S D E))
    (init : Unit → S) (conf : SpecConf) (d : Rng) :
    Event.tearDownCall ∉ (outerOf c0 cs init conf d).events := by
  intro hmem
  obtain ⟨j, hj⟩ := outerOf_events_ok c0 cs init conf d _ hmem
  simp [Event.iterOf] at hj

lemma runAfterSetup_td_none (c0 : Command S D E) (cs : List (Command S D E))
    (init : Unit → S) (se : List (Event S)) (conf : SpecConf) (d : Rng) :
    (runAfterSetup c0 cs init none se conf d).err =
      (outerOf c0 cs init conf d).err := rfl

/-! ## Claim-level lemmas over `runAfterSetup` -/

lemma runAfterSetup_verifyFalse (c0 : Command S D E)
    (cs : List (Command S D E)) (init : Unit → S) (td : Option (Option E))
    (se : List (Event S)) (conf : SpecConf) (d : Rng) (i k : Nat) (n : String)
    (hse : ∀ ev' ∈ se, ev' = Event.setupCall)
    (hm : Event.verifyCall i k n false ∈
      (runAfterSetup c0 cs init td se conf d).events) :
    (∃ d0 s1 s2, (runAfterSetup c0 cs init td se conf d).err =
        some (.verifyErr i k n d0 s1 s2)) ∧
      ∀ i' k' n' s1 s2 b,
        Event.execCall i' k' n' s1 s2 b ∈
          (runAfterSetup c0 cs init td se conf d).events →
        posLe i' k' i k := by
  have hmo : Event.verifyCall i k n false ∈ (outerOf c0 cs init conf d).events :=
    mem_outer_of_mem_runAfterSetup c0 cs init td se conf d _ hse hm
      (by simp) (by simp)
  obtain ⟨d0, s1, s2, ho⟩ := outerLoop_verifyFalse c0 cs init
    (cmdPerIterOf conf).toNat (itersOf conf).toNat 0 (conf.rand.getD d) i k n hmo
  refine ⟨⟨d0, s1, s2, runAfterSetup_err_of_some c0 cs init td se conf d _ ho⟩, ?_⟩
  intro i' k' n' s1' s2' b hev
  have hev' : Event.execCall i' k' n' s1' s2' b ∈ (outerOf c0 cs init conf d).events :=
    mem_outer_of_mem_runAfterSetup c0 cs init td se conf d _ hse hev
      (by simp) (by simp)
  obtain ⟨i0, k0, hp, _, _, hlast⟩ := outerLoop_err_last c0 cs init
    (cmdPerIterOf conf).toNat (itersOf conf).toNat 0 (conf.rand.getD d) _ ho
  have hik : (i, k) = (i0, k0) := Option.some.inj hp
  injection hik with h1 h2
  have hle := hlast _ hev' i' k' n' s1' s2' b rfl
  rw [← h1, ← h2] at hle
  exact hle

lemma runAfterSetup_execErrored (c0 : Command S D E)
    (cs : List (Command S D E)) (init : Unit → S) (td : Option (Option E))
    (se : List (Event S)) (conf : SpecConf) (d : Rng) (i k : Nat) (n : String)
    (s1 s2 : S)
    (hse : ∀ ev' ∈ se, ev' = Event.setupCall)
    (hm : Event.execCall i k n s1 s2 true ∈
      (runAfterSetup c0 cs init td se conf d).events) :
    (∃ e, (runAfterSetup c0 cs init td se conf d).err = some e ∧
        e.pos = some (i, k) ∧ e.cmdName = some n) ∧
      ∀ i' k' n' s1' s2' b,
        Event.execCall i' k' n' s1' s2' b ∈
          (runAfterSetup c0 cs init td se conf d).events →
        posLe i' k' i k := by
  have hmo : Event.execCall i k n s1 s2 true ∈ (outerOf c0 cs init conf d).events :=
    mem_outer_of_mem_runAfterSetup c0 cs init td se conf d _ hse hm
      (by simp) (by simp)
  obtain ⟨e, ho, hp, hn⟩ := outerLoop_execErrored c0 cs init
    (cmdPerIterOf conf).toNat (itersOf conf).toNat 0 (conf.rand.getD d) i k n s1 s2 hmo
  refine ⟨⟨e, runAfterSetup_err_of_some c0 cs init td se conf d _ ho, hp, hn⟩, ?_⟩
  intro i' k' n' s1' s2' b hev
  have hev' : Event.execCall i' k' n' s1' s2' b ∈ (outerOf c0 cs init conf d).events :=
    mem_outer_of_mem_runAfterSetup c0 cs init td se conf d _ hse hev
      (by simp) (by simp)
  obtain ⟨i0, k0, hp0, _, _, hlast⟩ := outerLoop_err_last c0 cs init
    (cmdPerIterOf conf).toNat (itersOf conf).toNat 0 (conf.rand.getD d) _ ho
  have hik : (i, k) = (i0, k0) := by
    rw [hp] at hp0
    exact Option.some.inj hp0
  injection hik with h1 h2
  have hle := hlast _ hev' i' k' n' s1' s2' b rfl
  rw [← h1, ← h2] at hle
  exact hle

/-! ## Claim theorems -/

/-- C4: if some executed command's `Verify` returned false, `Run` returns a
non-nil error referencing that exact iteration index, step index and
command name, and no command at a later step of that iteration nor in any
later iteration is executed. -/
theorem c4_verify_false_stops_run (s : Spec S D E) (conf : SpecConf) (d : Rng)
    (i k : Nat) (n : String)
    (hm : Event.verifyCall i k n false ∈ (s.run conf d).events) :
    (∃ d0 s1 s2, (s.run conf d).err = some (.verifyErr i k n d0 s1 s2)) ∧
      ∀ i' k' n' s1 s2 b,
        Event.execCall i' k' n' s1 s2 b ∈ (s.run conf d).events →
        posLe i' k' i k := by
  rcases run_case_split s conf d with hev | hev | ⟨c0, cs, init, hc, hi, hcase⟩
  · rw [hev] at hm
    simp at hm
  · rw [hev] at hm
    simp at hm
  · rcases hcase with ⟨hsu, heq⟩ | ⟨hsu, heq⟩
    · rw [heq] at hm ⊢
      exact runAfterSetup_verifyFalse c0 cs init s.tearDown [] conf d i k n
        (by simp) hm
    · rw [heq] at hm ⊢
      exact runAfterSetup_verifyFalse c0 cs init s.tearDown [Event.setupCall]
        conf d i k n (by simp) hm

/-- C1 (amended): when an executed command's `Outcome` carries a non-nil
error, `Run` records a Command-Execution-Error with the step's data and the
whole run stops (no later command executes) — however, contrary to the
original claim, a present `Verify` step IS still consulted for that step,
and if it returns false the recorded error is the Verification-Error
instead of the Command-Execution-Error. -/
theorem c1_exec_error_records_and_stops :
    (∀ (c : Command S D E) (iter step : Nat) (state : S)
        (out : CommandOutput S D E) (e : E), out.error = some e →
      ((execStep c iter step state out).err =
        match c.verify with
        | none => some (.cmdErr iter step c.name out.description state e)
        | some v =>
          if v state out.newState then
            some (.cmdErr iter step c.name out.description state e)
          else
            some (.verifyErr iter step c.name out.description state out.newState)) ∧
      ∀ v, c.verify = some v →
        Event.verifyCall iter step c.name (v state out.newState) ∈
          (execStep c iter step state out).events) ∧
    ∀ (s : Spec S D E) (conf : SpecConf) (d : Rng) (i k : Nat) (n : String)
        (s1 s2 : S),
      Event.execCall i k n s1 s2 true ∈ (s.run conf d).events →
      (∃ e, (s.run conf d).err = some e ∧ e.pos = some (i, k) ∧
        e.cmdName = some n) ∧
      ∀ i' k' n' s1' s2' b,
        Event.execCall i' k' n' s1' s2' b ∈ (s.run conf d).events →
        posLe i' k' i k := by
  constructor
  · intro c iter step state out e he
    constructor
    · cases hv : c.verify with
      | none => simp [execStep, hv, he]
      | some v => cases hok : v state out.newState <;> simp [execStep, hv, he, hok]
    · intro v hv
      simp [execStep, hv]
  · intro s conf d i k n s1 s2 hm
    rcases run_case_split s conf d with hev | hev | ⟨c0, cs, init, hc, hi, hcase⟩
    · rw [hev] at hm
      simp at hm
    · rw [hev] at hm
      simp at hm
    · rcases hcase with ⟨hsu, heq⟩ | ⟨hsu, heq⟩
      · rw [heq] at hm ⊢
        exact runAfterSetup_execErrored c0 cs init s.tearDown [] conf d i k n
          s1 s2 (by simp) hm
      · rw [heq] at hm ⊢
        exact runAfterSetup_execErrored c0 cs init s.tearDown [Event.setupCall]
          conf d i k n s1 s2 (by simp) hm

/-- C1, counterexample to the original phrasing: a command whose execution
errors and whose `Verify` returns false. The verification step IS consulted
(`verifyCall ... false` is in the trace) and the error `Run` returns is the
Verification-Error, not the Command-Execution-Error. -/
theorem c1_counterexample :
    (errVerSpec.run conf1 rng0).err =
        some (.verifyErr 0 0 "errver" 0 0 1) ∧
      Event.verifyCall 0 0 "errver" false ∈ (errVerSpec.run conf1 rng0).events := by
  constructor
  · simp [Spec.run, runAfterSetup, outerOf, outerLoop, innerLoop, execStep,
      pick, Rng.intn, itersOf, cmdPerIterOf, errVerSpec, errVerCmd, rng0, conf1]
  · simp [Spec.run, runAfterSetup, outerOf, outerLoop, innerLoop, execStep,
      pick, Rng.intn, itersOf, cmdPerIterOf, errVerSpec, errVerCmd, rng0, conf1]

/-- C1, witness: the amended theorem applied to the concrete erroring
command and to the concrete run of `errVerSpec`. -/
theorem c1_witness :
    ((execStep errVerCmd 0 0 0 ⟨1, 0, some "boom"⟩).err =
        some (.verifyErr 0 0 "errver" 0 0 1) ∧
      Event.verifyCall 0 0 "errver" false ∈
        (execStep errVerCmd 0 0 0 ⟨1, 0, some "boom"⟩).events) ∧
      ∃ e, (errVerSpec.run conf1 rng0).err = some e ∧
        e.pos = some (0, 0) ∧ e.cmdName = some "errver" := by
  obtain ⟨ha, hb⟩ := @c1_exec_error_records_and_stops Nat Nat String
  obtain ⟨h1, h2⟩ := ha errVerCmd 0 0 0 ⟨1, 0, some "boom"⟩ "boom" rfl
  refine ⟨⟨?_, ?_⟩, ?_⟩
  · rw [h1]
    simp [errVerCmd]
  · have h3 := h2 (fun _ _ => false) rfl
    simpa [errVerCmd] using h3
  · have hm : Event.execCall 0 0 "errver" 0 1 true ∈
        (errVerSpec.run conf1 rng0).events := by
      simp [Spec.run, runAfterSetup, outerOf, outerLoop, innerLoop, execStep,
        pick, Rng.intn, itersOf, cmdPerIterOf, errVerSpec, errVerCmd, rng0, conf1]
    exact (hb errVerSpec conf1 rng0 0 0 "errver" 0 1 hm).1

/-- C4, witness: a run of `failVerSpec` in which the single command's
verification returns false at iteration 0, step 0. -/
theorem c4_witness :
    Event.verifyCall 0 0 "failver" false ∈ (failVerSpec.run conf1 rng0).events ∧
      (∃ d0 s1 s2, (failVerSpec.run conf1 rng0).err =
          some (.verifyErr 0 0 "failver" d0 s1 s2)) ∧
      ∀ i' k' n' s1 s2 b,
        Event.execCall i' k' n' s1 s2 b ∈ (failVerSpec.run conf1 rng0).events →
        posLe i' k' 0 0 := by
  have hm : Event.verifyCall 0 0 "failver" false ∈
      (failVerSpec.run conf1 rng0).events := by
    simp [Spec.run, runAfterSetup, outerOf, outerLoop, innerLoop, execStep,
      pick, Rng.intn, itersOf, cmdPerIterOf, failVerSpec, failVerCmd, rng0, conf1]
  exact ⟨hm, c4_verify_false_stops_run failVerSpec conf1 rng0 0 0 "failver" hm⟩

/-- C6: an empty command list or a nil state factory yields a
Configuration-Error, a zero iteration count, and no iteration (indeed no
event at all). -/
theorem c6_config_error (s : Spec S D E) (conf : SpecConf) (d : Rng)
    (h : s.commands = [] ∨ s.initState = none) :
    (s.run conf d).iters = 0 ∧
      ((s.run conf d).err = some .commandsEmpty ∨
        (s.run conf d).err = some .initStateNil) ∧
      (s.run conf d).events = [] := by
  rcases h with h | h
  · rw [run_commandsEmpty s conf d h]
    exact ⟨rfl, Or.inl rfl, rfl⟩
  · cases hc : s.commands with
    | nil =>
      rw [run_commandsEmpty s conf d hc]
      exact ⟨rfl, Or.inl rfl, rfl⟩
    | cons c0 cs =>
      rw [run_initStateNil s conf d c0 cs hc h]
      exact ⟨rfl, Or.inr rfl, rfl⟩

/-- C6, witness: the empty-commands spec. -/
theorem c6_witness :
    (emptySpec.run conf3 rng0).iters = 0 ∧
      ((emptySpec.run conf3 rng0).err = some .commandsEmpty ∨
        (emptySpec.run conf3 rng0).err = some .initStateNil) ∧
      (emptySpec.run conf3 rng0).events = [] :=
  c6_config_error emptySpec conf3 rng0 (Or.inl rfl)

/-- C10: when a configuration check fails, `Run` returns without invoking
`Setup`, `TearDown` or any command's `Gen`; when both checks fail the
empty-commands error wins (`Commands` is checked before `InitState`). -/
theorem c10_config_checks_first (s : Spec S D E) (conf : SpecConf) (d : Rng)
    (h : s.commands = [] ∨ s.initState = none) :
    Event.setupCall ∉ (s.run conf d).events ∧
      Event.tearDownCall ∉ (s.run conf d).events ∧
      (∀ i j b, Event.genCall i j b ∉ (s.run conf d).events) ∧
      (s.commands = [] → (s.run conf d).err = some .commandsEmpty) := by
  have hev : (s.run conf d).events = [] := by
    rcases h with h | h
    · rw [run_commandsEmpty s conf d h]
    · cases hc : s.commands with
      | nil => rw [run_commandsEmpty s conf d hc]
      | cons c0 cs => rw [run_initStateNil s conf d c0 cs hc h]
  refine ⟨by simp [hev], by simp [hev], fun i j b => by simp [hev], fun hc => ?_⟩
  rw [run_commandsEmpty s conf d hc]

/-- C10, witness: a spec failing both checks at once returns the
empty-commands error and records no invocation. -/
theorem c10_witness :
    Event.setupCall ∉ (emptyNilSpec.run conf3 rng0).events ∧
      Event.tearDownCall ∉ (emptyNilSpec.run conf3 rng0).events ∧
      (emptyNilSpec.run conf3 rng0).err = some .commandsEmpty := by
  have h := c10_config_checks_first emptyNilSpec conf3 rng0 (Or.inl rfl)
  exact ⟨h.1, h.2.1, h.2.2.2 rfl⟩

/-- C7: a present `Setup` returning an error aborts the run with zero
iterations and the setup error; no iteration starts and `TearDown` is not
invoked. -/
theorem c7_setup_error_aborts (s : Spec S D E) (conf : SpecConf) (d : Rng)
    (c0 : Command S D E) (cs : List (Command S D E)) (init : Unit → S) (e : E)
    (hc : s.commands = c0 :: cs) (hi : s.initState = some init)
    (hsu : s.setup = some (some e)) :
    (s.run conf d).iters = 0 ∧
      (s.run conf d).err = some (.setupErr e) ∧
      (s.run conf d).events = [Event.setupCall] ∧
      (∀ i st, Event.initStateCall i st ∉ (s.run conf d).events) ∧
      Event.tearDownCall ∉ (s.run conf d).events := by
  rw [run_setupErr s conf d c0 cs init e hc hi hsu]
  refine ⟨rfl, rfl, rfl, fun i st => by simp, by simp⟩

/-- C7, witness: the concrete spec whose setup errors. -/
theorem c7_witness :
    (setupErrSpec.run conf3 rng0).iters = 0 ∧
      (setupErrSpec.run conf3 rng0).err = some (.setupErr "setup boom") ∧
      (setupErrSpec.run conf3 rng0).events = [Event.setupCall] ∧
      (∀ i st, Event.initStateCall i st ∉ (setupErrSpec.run conf3 rng0).events) ∧
      Event.tearDownCall ∉ (setupErrSpec.run conf3 rng0).events :=
  c7_setup_error_aborts setupErrSpec conf3 rng0 incCmd [] (fun _ => 0)
    "setup boom" rfl rfl rfl

/-- C5: once the configuration checks pass and setup succeeds, the integer
`Run` returns is the defaulted iteration count (`Iterations` if ≥ 1, else
100), regardless of any mid-run execution, verification or teardown
error. -/
theorem c5_returns_configured_iterations (s : Spec S D E) (conf : SpecConf)
    (d : Rng) (c0 : Command S D E) (cs : List (Command S D E))
    (init : Unit → S) (hc : s.commands = c0 :: cs)
    (hi : s.initState = some init)
    (hsu : s.setup = none ∨ s.setup = some none) :
    (s.run conf d).iters =
      if conf.iterations < 1 then 100 else conf.iterations := by
  rcases hsu with hsu | hsu
  · rw [run_setupAbsent s conf d c0 cs init hc hi hsu, runAfterSetup_iters]
    rfl
  · rw [run_setupOk s conf d c0 cs init hc hi hsu, runAfterSetup_iters]
    rfl

/-- C5, witness: a run whose single command errors mid-run, with
`Iterations = 0` (defaulted to 100) and `MaxCmdPerIter = -7` (defaulted to
20): the returned count is still the defaulted iteration count. -/
theorem c5_witness :
    (errVerSpec.run confDefaults rng0).iters =
      if confDefaults.iterations < 1 then 100 else confDefaults.iterations :=
  c5_returns_configured_iterations errVerSpec confDefaults rng0 errVerCmd []
    (fun _ => 0) rfl rfl (Or.inl rfl)

/-- C9: `Run` introduces no nondeterminism beyond the supplied random
source: when `conf.Rand` is supplied, the result — error and full event
trace (selections, declines, threaded states) — does not depend on the
time-seeded fallback source, so two independent calls coincide. -/
theorem c9_deterministic (s : Spec S D E) (conf : SpecConf) (r : Rng)
    (h : conf.rand = some r) (d1 d2 : Rng) :
    s.run conf d1 = s.run conf d2 := by
  have ho : ∀ (c0 : Command S D E) (cs : List (Command S D E))
      (init : Unit → S), outerOf c0 cs init conf d1 = outerOf c0 cs init conf d2 := by
    intro c0 cs init
    simp [outerOf, h]
  have hras : ∀ (c0 : Command S D E) (cs : List (Command S D E))
      (init : Unit → S) (td : Option (Option E)) (se : List (Event S)),
      runAfterSetup c0 cs init td se conf d1 =
        runAfterSetup c0 cs init td se conf d2 := by
    intro c0 cs init td se
    simp only [runAfterSetup, ho c0 cs init]
  cases hc : s.commands with
  | nil => rw [run_commandsEmpty s conf d1 hc, run_commandsEmpty s conf d2 hc]
  | cons c0 cs =>
    cases hi : s.initState with
    | none =>
      rw [run_initStateNil s conf d1 c0 cs hc hi,
        run_initStateNil s conf d2 c0 cs hc hi]
    | some init =>
      rcases hsu : s.setup with _ | (_ | e)
      · rw [run_setupAbsent s conf d1 c0 cs init hc hi hsu,
          run_setupAbsent s conf d2 c0 cs init hc hi hsu, hras]
      · rw [run_setupOk s conf d1 c0 cs init hc hi hsu,
          run_setupOk s conf d2 c0 cs init hc hi hsu, hras]
      · rw [run_setupErr s conf d1 c0 cs init e hc hi hsu,
          run_setupErr s conf d2 c0 cs init e hc hi hsu]

/-- C9, witness: with the random source fixed in the configuration, two
runs with different fallback sources coincide. -/
theorem c9_witness :
    incSpec.run conf3 ⟨fun _ => 1, 0⟩ = incSpec.run conf3 rng0 :=
  c9_deterministic incSpec conf3 rng0 rfl ⟨fun _ => 1, 0⟩ rng0

/-- C2 (code bug, line 166 of `spec.go`): setup and all three iterations
succeed, `TearDown` returns the error "td boom", and `Run` does return a
non-nil error — but that error is `fmt.Errorf("spec.Run TearDown error:
%w", err)` with `err` the prior (nil) run error, so it does not wrap the
teardown error: in the embedding its `wrapped` field is `none` rather than
`some "td boom"`. -/
theorem c2_teardown_error_dropped :
    tdSpec.tearDown = some (some "td boom") ∧
      (outerOf incCmd [] (fun _ => 0) conf3 rng0).err = none ∧
      (tdSpec.run conf3 rng0).iters = 3 ∧
      (tdSpec.run conf3 rng0).err = some (.tearDownErr none) := by
  refine ⟨rfl, ?_, ?_, ?_⟩ <;>
    simp [Spec.run, runAfterSetup, outerOf, outerLoop, innerLoop, execStep,
      pick, Rng.intn, itersOf, cmdPerIterOf, tdSpec, incCmd, rng0, conf3]

/-- C8: whenever setup succeeds, a present `TearDown` runs exactly once,
whatever happened during the iterations; and an error recorded during the
iterations (the error of the same run with `TearDown` removed) is the one
returned — the teardown error never replaces it. -/
theorem c8_teardown_once_and_error_precedence (s : Spec S D E)
    (conf : SpecConf) (d : Rng) (c0 : Command S D E)
    (cs : List (Command S D E)) (init : Unit → S) (td : Option E)
    (hc : s.commands = c0 :: cs) (hi : s.initState = some init)
    (hsu : s.setup = none ∨ s.setup = some none)
    (htd : s.tearDown = some td) :
    (s.run conf d).events.countP Event.isTearDown = 1 ∧
      ∀ e, ((⟨s.setup, none, s.initState, s.commands⟩ : Spec S D E).run conf d).err =
          some e →
        (s.run conf d).err = some e := by
  constructor
  · have hz : (outerOf c0 cs init conf d).events.countP Event.isTearDown = 0 := by
      refine List.countP_eq_zero.2 (fun ev hev => ?_)
      obtain ⟨j, hj⟩ := outerOf_events_ok c0 cs init conf d ev hev
      cases ev <;> simp [Event.isTearDown] <;> simp [Event.iterOf] at hj
    rcases hsu with hsu | hsu
    · rw [run_setupAbsent s conf d c0 cs init hc hi hsu, runAfterSetup_events,
        htd]
      simp [List.countP_append, hz, Event.isTearDown]
    · rw [run_setupOk s conf d c0 cs init hc hi hsu, runAfterSetup_events, htd]
      simp [List.countP_append, hz, Event.isTearDown]
  · intro e he
    rcases hsu with hsu | hsu
    · rw [run_setupAbsent (⟨s.setup, none, s.initState, s.commands⟩ : Spec S D E)
        conf d c0 cs init hc hi hsu] at he
      rw [run_setupAbsent s conf d c0 cs init hc hi hsu]
      exact runAfterSetup_err_of_some c0 cs init s.tearDown [] conf d e he
    · rw [run_setupOk (⟨s.setup, none, s.initState, s.commands⟩ : Spec S D E)
        conf d c0 cs init hc hi hsu] at he
      rw [run_setupOk s conf d c0 cs init hc hi hsu]
      exact runAfterSetup_err_of_some c0 cs init s.tearDown [Event.setupCall]
        conf d e he

/-- C8, witness: a run with a mid-run verification error and an erroring
teardown: teardown still runs exactly once and the verification error is
the one returned. -/
theorem c8_witness :
    (errVerTdSpec.run conf1 rng0).events.countP Event.isTearDown = 1 ∧
      (errVerTdSpec.run conf1 rng0).err =
        some (.verifyErr 0 0 "errver" 0 0 1) := by
  have h := c8_teardown_once_and_error_precedence errVerTdSpec conf1 rng0
    errVerCmd [] (fun _ => 0) (some "td boom") rfl rfl (Or.inr rfl) rfl
  refine ⟨h.1, h.2 _ ?_⟩
  simp [Spec.run, runAfterSetup, outerOf, outerLoop, innerLoop, execStep,
    pick, Rng.intn, itersOf, cmdPerIterOf, errVerTdSpec, errVerCmd, rng0, conf1]

/-! ## All commands decline (C3) -/

lemma pick_mem (c0 : Command S D E) (cs : List (Command S D E)) (k : Nat) :
    pick c0 cs k ∈ c0 :: cs := by
  unfold pick
  apply List.get_mem

lemma innerLoop_allDecline (c0 : Command S D E) (cs : List (Command S D E))
    (iter total maxTries : Nat) (state : S) (tries : Nat) (rng : Rng)
    (hd : ∀ c ∈ c0 :: cs, ∀ (st : S) (r : Rng), (c.gen st r).1 = none)
    (ht : 0 < total) :
    (innerLoop c0 cs iter total maxTries state 0 tries rng).err = none ∧
      (innerLoop c0 cs iter total maxTries state 0 tries rng).events.length =
        maxTries - tries ∧
      ∀ ev ∈ (innerLoop c0 cs iter total maxTries state 0 tries rng).events,
        ∃ j, ev = Event.genCall iter j true := by
  by_cases h : (0 : Nat) < total ∧ tries < maxTries
  · have hg : (genAt c0 cs state rng).1 = none :=
      hd (selCmd c0 cs rng) (pick_mem c0 cs (selIdx cs rng)) state
        (rng.intn (cs.length + 1)).2
    rw [innerLoop_decline c0 cs iter total maxTries state 0 tries rng h hg]
    obtain ⟨h1, h2, h3⟩ := innerLoop_allDecline c0 cs iter total maxTries state
      (tries + 1) (genAt c0 cs state rng).2 hd ht
    refine ⟨h1, ?_, ?_⟩
    · simp only [List.length_cons, h2]
      omega
    · intro ev hev
      rcases List.mem_cons.1 hev with rfl | hev
      · exact ⟨selIdx cs rng, rfl⟩
      · exact h3 ev hev
  · rw [innerLoop_stop c0 cs iter total maxTries state 0 tries rng h]
    refine ⟨rfl, ?_, by simp⟩
    simp only [List.length_nil]
    omega
termination_by maxTries - tries
decreasing_by omega

lemma outerLoop_allDecline (c0 : Command S D E) (cs : List (Command S D E))
    (init : Unit → S) (cmdPerIter iters i : Nat) (rng : Rng)
    (hd : ∀ c ∈ c0 :: cs, ∀ (st : S) (r : Rng), (c.gen st r).1 = none) :
    (outerLoop c0 cs init cmdPerIter iters i rng).err = none ∧
      (∀ i0 k n s1 s2 b, Event.execCall i0 k n s1 s2 b ∉
        (outerLoop c0 cs init cmdPerIter iters i rng).events) ∧
      ∀ j, i ≤ j → j < iters →
        genCalls j (outerLoop c0 cs init cmdPerIter iters i rng).events =
          3 * (cs.length + 1) := by
  by_cases h : i < iters
  · obtain ⟨hr1, hr2, hr3⟩ := innerLoop_allDecline c0 cs i
      ((rng.intn cmdPerIter).1 + 1) (3 * (cs.length + 1)) (init ()) 0
      (rng.intn cmdPerIter).2 hd (Nat.succ_pos _)
    have hre : (iterRun c0 cs init cmdPerIter i rng).err = none := hr1
    rw [outerLoop_cont c0 cs init cmdPerIter iters i rng h hre]
    obtain ⟨ih1, ih2, ih3⟩ := outerLoop_allDecline c0 cs init cmdPerIter iters
      (i + 1) (iterRun c0 cs init cmdPerIter i rng).rng hd
    refine ⟨ih1, ?_, ?_⟩
    · intro i0 k n s1 s2 b hmem
      rcases List.mem_append.1 hmem with hmem | hmem
      · rcases List.mem_cons.1 hmem with hmem | hmem
        · simp at hmem
        · obtain ⟨j, hj⟩ := hr3 _ hmem
          simp at hj
      · exact ih2 i0 k n s1 s2 b hmem
    · intro j hj1 hj2
      rw [genCalls, List.countP_append]
      by_cases hji : j = i
      · subst hji
        have hall : ∀ ev ∈ (iterRun c0 cs init cmdPerIter j rng).events,
            Event.isGenAt j ev := by
          intro ev hev
          obtain ⟨jx, rfl⟩ := hr3 ev hev
          simp [Event.isGenAt]
        have hlen : (iterRun c0 cs init cmdPerIter j rng).events.length =
            3 * (cs.length + 1) - 0 := hr2
        have hfst : List.countP (Event.isGenAt j)
            (Event.initStateCall j (init ()) ::
              (iterRun c0 cs init cmdPerIter j rng).events) =
            3 * (cs.length + 1) := by
          rw [List.countP_cons_of_neg _ _ (by simp [Event.isGenAt]),
            List.countP_eq_length.2 hall]
          omega
        have hsnd : List.countP (Event.isGenAt j)
            (outerLoop c0 cs init cmdPerIter iters (j + 1)
              (iterRun c0 cs init cmdPerIter j rng).rng).events = 0 := by
          refine List.countP_eq_zero.2 (fun ev hev => ?_)
          obtain ⟨j', hj', hge⟩ := outerLoop_events_ok c0 cs init cmdPerIter
            iters (j + 1) _ ev hev
          cases ev <;> simp [Event.isGenAt, Event.iterOf] at hj' ⊢ <;> omega
        rw [hfst, hsnd]
        omega
      · have hfst : List.countP (Event.isGenAt j)
            (Event.initStateCall i (init ()) ::
              (iterRun c0 cs init cmdPerIter i rng).events) = 0 := by
          rw [List.countP_cons_of_neg _ _ (by simp [Event.isGenAt])]
          refine List.countP_eq_zero.2 (fun ev hev => ?_)
          obtain ⟨jx, rfl⟩ := hr3 ev hev
          simp [Event.isGenAt]
          omega
        rw [hfst]
        have ih3' := ih3 j (by omega) hj2
        rw [genCalls] at ih3'
        omega
  · rw [outerLoop_stop c0 cs init cmdPerIter iters i rng h]
    refine ⟨rfl, by simp, fun j hj1 hj2 => ?_⟩
    exact absurd (lt_of_le_of_lt hj1 hj2) h
termination_by iters - i
decreasing_by omega

/-- C3: when every command declines on every call, each iteration performs
exactly `3 × numberOfCommands` `Gen` calls and executes no command; with
`iterations = 3` (and a teardown that does not error), `Run` returns
`(3, nil)`. -/
theorem c3_all_decline (s : Spec S D E) (conf : SpecConf) (d : Rng)
    (c0 : Command S D E) (cs : List (Command S D E)) (init : Unit → S)
    (hc : s.commands = c0 :: cs) (hi : s.initState = some init)
    (hsu : s.setup = none ∨ s.setup = some none)
    (htd : s.tearDown = none ∨ s.tearDown = some none)
    (hit : conf.iterations = 3)
    (hd : ∀ c ∈ s.commands, ∀ (st : S) (r : Rng), (c.gen st r).1 = none) :
    (s.run conf d).iters = 3 ∧ (s.run conf d).err = none ∧
      (∀ i k n s1 s2 b,
        Event.execCall i k n s1 s2 b ∉ (s.run conf d).events) ∧
      ∀ j, j < 3 → genCalls j (s.run conf d).events = 3 * s.commands.length := by
  rw [hc] at hd
  have hiters : (itersOf conf).toNat = 3 := by simp [itersOf, hit]
  obtain ⟨ho1, ho2, ho3⟩ := outerLoop_allDecline c0 cs init
    (cmdPerIterOf conf).toNat (itersOf conf).toNat 0 (conf.rand.getD d) hd
  have hoe : (outerOf c0 cs init conf d).err = none := ho1
  obtain ⟨se, hse, heq⟩ : ∃ se, (∀ ev ∈ se, ev = Event.setupCall) ∧
      s.run conf d = runAfterSetup c0 cs init s.tearDown se conf d := by
    rcases hsu with hsu | hsu
    · exact ⟨[], by simp, run_setupAbsent s conf d c0 cs init hc hi hsu⟩
    · exact ⟨[Event.setupCall], by simp, run_setupOk s conf d c0 cs init hc hi hsu⟩
  rw [heq]
  refine ⟨?_, ?_, ?_, ?_⟩
  · rw [runAfterSetup_iters]
    simp [itersOf, hit]
  · rw [runAfterSetup_err_of_none c0 cs init s.tearDown se conf d hoe]
    rcases htd with htd | htd <;> simp [htd]
  · intro i k n s1 s2 b hmem
    rw [runAfterSetup_events] at hmem
    rcases List.mem_append.1 hmem with hmem | hmem
    · rcases List.mem_append.1 hmem with hmem | hmem
      · exact absurd (hse _ hmem) (by simp)
      · exact ho2 i k n s1 s2 b hmem
    · split at hmem <;> simp at hmem
  · intro j hj
    rw [runAfterSetup_events, genCalls, List.countP_append, List.countP_append]
    have h1 : List.countP (Event.isGenAt j) se = 0 :=
      List.countP_eq_zero.2 (fun ev hev => by
        rw [hse ev hev]
        simp [Event.isGenAt])
    have h3 : List.countP (Event.isGenAt j)
        (if (s.tearDown).isSome then [Event.tearDownCall] else ([] : List (Event S))) = 0 := by
      split <;> simp [Event.isGenAt]
    have h2 : List.countP (Event.isGenAt j)
        (outerOf c0 cs init conf d).events = 3 * (cs.length + 1) := by
      have h2' := ho3 j (Nat.zero_le _) (by rw [hiters]; omega)
      rw [genCalls] at h2'
      exact h2'
    rw [h1, h2, h3, hc]
    simp

/-- C3, witness: two always-declining commands, three iterations. -/
theorem c3_witness :
    (declSpec.run conf3 rng0).iters = 3 ∧
      (declSpec.run conf3 rng0).err = none ∧
      genCalls 0 (declSpec.run conf3 rng0).events =
        3 * declSpec.commands.length := by
  have hd : ∀ c ∈ declSpec.commands, ∀ (st : Nat) (r : Rng),
      (c.gen st r).1 = none := by
    intro c hcm st r
    simp [declSpec] at hcm
    rcases hcm with rfl | rfl <;> rfl
  have h := c3_all_decline declSpec conf3 rng0 declCmd [declCmd] (fun _ => 0)
    rfl rfl (Or.inl rfl) (Or.inl rfl) rfl hd
  exact ⟨h.1, h.2.1, h.2.2.2 0 (by omega)⟩

end Statespec
